import Mathlib

/-!
# Verification of the IMAP mini MCP server core

A shallow embedding of the session & identity layer of the `imap-mini-mcp`
repository, together with proofs of its specified properties.

Modelling conventions:
* JavaScript strings that are sliced / indexed (the composite identifiers)
  are modelled as `List Char`; folder paths and plain labels as `String`.
* A JavaScript `Date` is modelled by its calendar components (`Timestamp`);
  `Date.prototype.getTime()` is `Timestamp.toMillis`.
* Asynchronous I/O against the IMAP server is modelled by passing the
  server's responses in explicitly (environment records) and by returning
  the list of protocol commands the code issued (a trace), so that claims
  about command counts and ordering can be stated.
* JavaScript truthiness on `number | null` values is modelled by
  `jsTruthyNat` (both `null` and `0` are falsy).
-/

namespace ImapMcp

/-- JS truthiness of a `number | null` value: `null` and `0` are falsy. -/
def jsTruthyNat : Option Nat → Bool
  | none => false
  | some u => u != 0

/-- JS `x || dflt` for a possibly-missing string (`undefined` and `""` are falsy). -/
def jsOrStr (o : Option String) (dflt : String) : String :=
  match o with
  | none => dflt
  | some s => if s == "" then dflt else s

/-- The decimal digit character for `n < 10`. -/
def digitChar (n : Nat) : Char := Char.ofNat (48 + n)

/-- Fixed-width zero-padded decimal rendering, as produced by
`Date.prototype.toISOString` for each in-range calendar component. -/
def padZ : Nat → Nat → List Char
  | 0, _ => []
  | w + 1, n => padZ w (n / 10) ++ [digitChar (n % 10)]

theorem padZ_length (w n : Nat) : (padZ w n).length = w := by
  induction w generalizing n with
  | zero => rfl
  | succ w ih => simp [padZ, ih]

/-- A JavaScript `Date`, by calendar components (UTC). -/
structure Timestamp where
  year : Nat
  month : Nat
  day : Nat
  hour : Nat
  minute : Nat
  second : Nat
  ms : Nat
deriving DecidableEq, Repr

/-- A timestamp whose components are those of a real (in-range) UTC
calendar instant representable by a JS `Date` without year expansion. -/
def Timestamp.valid (t : Timestamp) : Prop :=
  t.year ≤ 9999 ∧ 1 ≤ t.month ∧ t.month ≤ 12 ∧ 1 ≤ t.day ∧ t.day ≤ 31 ∧
    t.hour ≤ 23 ∧ t.minute ≤ 59 ∧ t.second ≤ 59 ∧ t.ms ≤ 999

instance (t : Timestamp) : Decidable t.valid := by
  unfold Timestamp.valid; infer_instance

/-- `new Date(0)`: the Unix epoch. -/
def epochTimestamp : Timestamp := ⟨1970, 1, 1, 0, 0, 0, 0⟩

/-- `d.toISOString().slice(0, 19)`: the second-precision prefix
`YYYY-MM-DDTHH:mm:ss` of the ISO rendering (19 characters, the
lexicographically sortable form; the `.sssZ` suffix is cut off). -/
def isoSecond (t : Timestamp) : List Char :=
  padZ 4 t.year ++ '-' :: padZ 2 t.month ++ '-' :: padZ 2 t.day ++
    'T' :: padZ 2 t.hour ++ ':' :: padZ 2 t.minute ++ ':' :: padZ 2 t.second

theorem isoSecond_length (t : Timestamp) : (isoSecond t).length = 19 := by
  simp [isoSecond, padZ_length]

/-- `Date.prototype.getTime()`: milliseconds since the Unix epoch, computed
from the calendar components with the standard civil-from-days arithmetic.
Used only as the comparison key of the date re-sorts. -/
def Timestamp.toMillis (t : Timestamp) : Int :=
  let y : Int := if t.month ≤ 2 then (t.year : Int) - 1 else (t.year : Int)
  let era : Int := (if 0 ≤ y then y else y - 399) / 400
  let yoe : Int := y - era * 400
  let m : Int := (t.month : Int)
  let doy : Int := (153 * (if 2 < m then m - 3 else m + 9) + 2) / 5 + (t.day : Int) - 1
  let doe : Int := yoe * 365 + yoe / 4 - yoe / 100 + doy
  let days : Int := era * 146097 + doe - 719468
  (((days * 24 + (t.hour : Int)) * 60 + (t.minute : Int)) * 60 + (t.second : Int)) * 1000
    + (t.ms : Int)

/-! ## Identity codec (`src/imap/resolve.ts`) -/

/-- `buildCompositeId(date, messageId)`: the 19-character second-precision
ISO timestamp, a literal `.`, then the Message-ID value verbatim. -/
def buildCompositeId (date : Timestamp) (messageId : List Char) : List Char :=
  isoSecond date ++ '.' :: messageId

/-- `parseCompositeId(compositeId)`: splits a composite identifier back into
its date part (first 19 characters) and Message-ID part (from character 20 on).
Throws exactly when the string is shorter than 20 characters or character 19
(0-based) is not the dot separator. -/
def parseCompositeId (compositeId : List Char) :
    Except String (List Char × List Char) :=
  if compositeId.length < 20 || compositeId[19]? != some '.' then
    .error "Invalid composite ID format. Expected YYYY-MM-DDTHH:mm:ss.messageId"
  else
    .ok (compositeId.take 19, compositeId.drop 20)

theorem buildCompositeId_length (t : Timestamp) (h : List Char) :
    (buildCompositeId t h).length = 20 + h.length := by
  simp [buildCompositeId, isoSecond_length]
  omega

theorem buildCompositeId_getElem19 (t : Timestamp) (h : List Char) :
    (buildCompositeId t h)[19]? = some '.' := by
  unfold buildCompositeId
  rw [List.getElem?_append_right (by rw [isoSecond_length])]
  simp [isoSecond_length]

theorem parseCompositeId_buildCompositeId (t : Timestamp) (h : List Char) :
    parseCompositeId (buildCompositeId t h) = .ok (isoSecond t, h) := by
  unfold parseCompositeId
  rw [if_neg]
  · have htake : (buildCompositeId t h).take 19 = isoSecond t := by
      unfold buildCompositeId
      rw [← isoSecond_length t, List.take_left]
    have hdrop : (buildCompositeId t h).drop 20 = h := by
      unfold buildCompositeId
      rw [List.append_cons]
      have h20 : (isoSecond t ++ ['.']).length = 20 := by simp [isoSecond_length]
      rw [← h20, List.drop_left]
    rw [htake, hdrop]
  · simp [buildCompositeId_length, buildCompositeId_getElem19]

/-! ## The mailbox world

The IMAP server's state, as seen through `client.list()` (folder entries, in
listing order) and per-folder `client.search(...)` (messages, in mailbox
order). -/

/-- A message as the search primitives see it. -/
structure Msg where
  uid : Nat
  messageId : List Char
deriving DecidableEq, Repr

/-- One entry of `client.list()`: path, display name, special-use attribute,
and the folder's messages. -/
structure MailboxInfo where
  path : String
  name : String
  specialUse : Option String
  msgs : List Msg
deriving DecidableEq, Repr

/-- The server state: the folder list in listing order. -/
abbrev World := List MailboxInfo

/-- Looking a mailbox up by path (opening it selects the first listed folder
with that path; an unknown path cannot be opened). -/
def findMailbox (w : World) (path : String) : Option MailboxInfo :=
  w.find? (fun f => f.path == path)

/-- Server response to `search({header: {"Message-ID": mid}}, {uid: true})`
in one folder: the UIDs of the matching messages, in mailbox order (exact
header match — the contract of §4.3). -/
def searchByMessageId (f : MailboxInfo) (mid : List Char) : List Nat :=
  (f.msgs.filter (fun m => m.messageId == mid)).map (·.uid)

/-! ## Resolver (`src/imap/resolve.ts`) -/

/-- `resolveInMailbox(imapClient, messageId, mailbox)`: open the mailbox
(fails when the path is unknown), search it for the Message-ID header, and
return `uids[0]` when the search matched, `null` otherwise. -/
def resolveInMailbox (w : World) (messageId : List Char) (mailbox : String) :
    Except Unit (Option Nat) :=
  match findMailbox w mailbox with
  | none => .error ()
  | some f => .ok (searchByMessageId f messageId).head?

/-- The failure modes of `resolveEmailId`. -/
inductive ResolveError where
  | formatError (msg : String)
  | lockError
  | notFound
deriving DecidableEq, Repr

/-- Step 3 of `resolveEmailId`: scan the listed folders, skipping the ones in
`tried`, searching each in listing order; stop at the first truthy UID. The
second component is the list of folder paths searched, in order. -/
def scanFolders (w : World) (mid : List Char) (tried : List String) :
    List MailboxInfo → Except ResolveError (Option (Nat × String)) × List String
  | [] => (.ok none, [])
  | f :: rest =>
    if tried.contains f.path then scanFolders w mid tried rest
    else
      match resolveInMailbox w mid f.path with
      | .error _ => (.error .lockError, [f.path])
      | .ok uid =>
        if jsTruthyNat uid then (.ok (some (uid.getD 0, f.path)), [f.path])
        else
          let (res, tr) := scanFolders w mid tried rest
          (res, f.path :: tr)

/-- `new Set([mailboxHint, "INBOX"])`, as the set of folder paths it can
actually exclude (`undefined` equals no path). -/
def triedList (hint : Option String) : List String :=
  (match hint with | some h => [h] | none => []) ++ ["INBOX"]

/-- `resolveEmailId(imapClient, compositeId, mailboxHint)`: resolve a
composite ID to `{uid, mailbox}`, searching the hint mailbox, then INBOX
(unless the hint was INBOX), then every other listed folder, short-circuiting
on the first truthy UID; throws when no folder matched. The second component
is the list of folder paths searched, in order. -/
def resolveEmailId (w : World) (compositeId : List Char) (hint : Option String) :
    Except ResolveError (Nat × String) × List String :=
  match parseCompositeId compositeId with
  | .error e => (.error (.formatError e), [])
  | .ok (_, mid) =>
    -- 1. Try the hint mailbox first (`if (mailboxHint)`: the empty string
    -- is falsy, so an empty hint is skipped like an absent one)
    let step1 : Except ResolveError (Option (Nat × String)) × List String :=
      match hint with
      | none => (.ok none, [])
      | some h =>
        if h == "" then (.ok none, [])
        else
          match resolveInMailbox w mid h with
          | .error _ => (.error .lockError, [h])
          | .ok uid =>
            (if jsTruthyNat uid then .ok (some (uid.getD 0, h)) else .ok none, [h])
    match step1 with
    | (.error e, tr1) => (.error e, tr1)
    | (.ok (some r), tr1) => (.ok r, tr1)
    | (.ok none, tr1) =>
      -- 2. Try INBOX (skip if already tried as hint)
      let step2 : Except ResolveError (Option (Nat × String)) × List String :=
        if hint == some "INBOX" then (.ok none, [])
        else
          match resolveInMailbox w mid "INBOX" with
          | .error _ => (.error .lockError, ["INBOX"])
          | .ok uid =>
            (if jsTruthyNat uid then .ok (some (uid.getD 0, "INBOX")) else .ok none,
              ["INBOX"])
      match step2 with
      | (.error e, tr2) => (.error e, tr1 ++ tr2)
      | (.ok (some r), tr2) => (.ok r, tr1 ++ tr2)
      | (.ok none, tr2) =>
        -- 3. Scan all folders
        match scanFolders w mid (triedList hint) w with
        | (.error e, tr3) => (.error e, tr1 ++ tr2 ++ tr3)
        | (.ok (some r), tr3) => (.ok r, tr1 ++ tr2 ++ tr3)
        | (.ok none, tr3) => (.error .notFound, tr1 ++ tr2 ++ tr3)

/-! Specification-side descriptions of the resolver's search order, for the
statement of the search-order claim. -/

/-- Whether the folder at `p` contains a message whose Message-ID header
equals `mid`. -/
def folderContains (w : World) (mid : List Char) (p : String) : Bool :=
  match findMailbox w p with
  | none => false
  | some f => f.msgs.any (fun m => m.messageId == mid)

/-- First UID a Message-ID search of the folder at `p` would return. -/
def firstMatchUid (w : World) (mid : List Char) (p : String) : Option Nat :=
  match findMailbox w p with
  | none => none
  | some f => (searchByMessageId f mid).head?

/-- The folder paths `resolveEmailId` is specified to search, in order: the
hint (if any), then INBOX (unless the hint was INBOX), then every listed
folder not already tried. -/
def folderOrder (w : World) (hint : Option String) : List String :=
  (match hint with
   | some h => if h == "" then [] else [h]
   | none => []) ++
    (if hint == some "INBOX" then [] else ["INBOX"]) ++
    (w.map (·.path)).filter (fun p => !(triedList hint).contains p)

/-- The prefix of `l` up to and including the first element satisfying `p`
(all of `l` when none does). -/
def takeToFirst (p : α → Bool) : List α → List α
  | [] => []
  | x :: l => if p x then [x] else x :: takeToFirst p l

theorem takeToFirst_eq_self (p : α → Bool) (l : List α)
    (h : ∀ x ∈ l, p x = false) : takeToFirst p l = l := by
  induction l with
  | nil => rfl
  | cons x l ih =>
    have hx := h x (List.mem_cons_self x l)
    simp [takeToFirst, hx, ih fun y hy => h y (List.mem_cons_of_mem x hy)]

/-- A single linear scan over a list of folder paths, searching each in turn
and stopping at the first truthy UID; the reference form the resolver's three
steps are proved to amount to. -/
def scanPaths (w : World) (mid : List Char) :
    List String → Except ResolveError (Option (Nat × String)) × List String
  | [] => (.ok none, [])
  | p :: ps =>
    match resolveInMailbox w mid p with
    | .error _ => (.error .lockError, [p])
    | .ok uid =>
      if jsTruthyNat uid then (.ok (some (uid.getD 0, p)), [p])
      else
        let (res, tr) := scanPaths w mid ps
        (res, p :: tr)

theorem scanPaths_append (w : World) (mid : List Char) (l₁ l₂ : List String) :
    scanPaths w mid (l₁ ++ l₂) =
      match scanPaths w mid l₁ with
      | (.ok none, tr₁) => ((scanPaths w mid l₂).1, tr₁ ++ (scanPaths w mid l₂).2)
      | other => other := by
  induction l₁ with
  | nil => simp [scanPaths]
  | cons p ps ih =>
    simp only [List.cons_append, scanPaths]
    cases hres : resolveInMailbox w mid p with
    | error e => rfl
    | ok uid =>
      by_cases htr : jsTruthyNat uid
      · simp [htr]
      · simp only [Bool.not_eq_true] at htr
        simp only [htr, Bool.false_eq_true, if_false]
        rcases h1 : scanPaths w mid ps with ⟨res1, tr1⟩
        simp only [List.append_eq]
        rw [ih, h1]
        cases res1 with
        | error e => rfl
        | ok o =>
          cases o with
          | none => rfl
          | some r => rfl

theorem scanFolders_eq_scanPaths (w : World) (mid : List Char)
    (tried : List String) (rest : List MailboxInfo) :
    scanFolders w mid tried rest =
      scanPaths w mid ((rest.map (·.path)).filter (fun p => !tried.contains p)) := by
  induction rest with
  | nil => rfl
  | cons f rest ih =>
    simp only [scanFolders, List.map_cons, List.filter_cons]
    by_cases hc : f.path ∈ tried
    · have hc' : tried.contains f.path = true := by simpa using hc
      simp [hc, hc', ih]
    · have hc' : tried.contains f.path = false := by simpa using hc
      simp only [hc, hc', Bool.not_false, if_true, if_false, scanPaths,
        Bool.false_eq_true, decide_eq_true_eq, Bool.not_eq_true', decide_eq_false_iff_not,
        not_false_iff, ite_true, ite_false]
      cases hres : resolveInMailbox w mid f.path with
      | error e => simp
      | ok uid =>
        by_cases htr : jsTruthyNat uid
        · simp [htr]
        · simp only [Bool.not_eq_true] at htr
          simp [htr, ih]

theorem resolveInMailbox_eq_firstMatch (w : World) (mid : List Char) (p : String)
    (hp : (findMailbox w p).isSome) :
    resolveInMailbox w mid p = .ok (firstMatchUid w mid p) := by
  unfold resolveInMailbox firstMatchUid
  cases h : findMailbox w p with
  | none => rw [h] at hp; exact absurd hp (by simp)
  | some f => rfl

theorem any_eq_truthy_head (msgs : List Msg) (mid : List Char)
    (hu : ∀ m ∈ msgs, m.uid ≠ 0) :
    msgs.any (fun m => m.messageId == mid) =
      jsTruthyNat ((msgs.filter (fun m => m.messageId == mid)).map (·.uid)).head? := by
  induction msgs with
  | nil => rfl
  | cons m ms ih =>
    by_cases hm : (m.messageId == mid) = true
    · have hne : m.uid ≠ 0 := hu m (List.mem_cons_self m ms)
      simp [List.any_cons, List.filter_cons, hm, jsTruthyNat, hne]
    · have hm' : (m.messageId == mid) = false := by simpa using hm
      simp only [List.any_cons, List.filter_cons, hm', Bool.false_eq_true, if_false,
        Bool.false_or]
      exact ih fun x hx => hu x (List.mem_cons_of_mem m hx)

theorem folderContains_eq_truthy (w : World) (mid : List Char) (p : String)
    (huid : ∀ f ∈ w, ∀ m ∈ f.msgs, m.uid ≠ 0) :
    folderContains w mid p = jsTruthyNat (firstMatchUid w mid p) := by
  unfold folderContains firstMatchUid
  cases h : findMailbox w p with
  | none => rfl
  | some f =>
    have hfw : f ∈ w := List.mem_of_find?_eq_some h
    unfold searchByMessageId
    exact any_eq_truthy_head f.msgs mid (huid f hfw)

theorem scanPaths_spec (w : World) (mid : List Char) (ps : List String)
    (hex : ∀ p ∈ ps, (findMailbox w p).isSome)
    (huid : ∀ f ∈ w, ∀ m ∈ f.msgs, m.uid ≠ 0) :
    scanPaths w mid ps =
      (match ps.find? (folderContains w mid) with
       | some p => .ok (some ((firstMatchUid w mid p).getD 0, p))
       | none => .ok none,
       takeToFirst (folderContains w mid) ps) := by
  induction ps with
  | nil => rfl
  | cons p ps ih =>
    have hp : (findMailbox w p).isSome := hex p (List.mem_cons_self p ps)
    have hres := resolveInMailbox_eq_firstMatch w mid p hp
    have hcont := folderContains_eq_truthy w mid p huid
    simp only [scanPaths, hres, List.find?_cons, takeToFirst]
    by_cases htr : jsTruthyNat (firstMatchUid w mid p) = true
    · have hc0 : folderContains w mid p = true := hcont.trans htr
      simp [htr, hc0]
    · have hc0 : folderContains w mid p = false := by
        rw [hcont]; simpa using htr
      simp only [Bool.not_eq_true] at htr
      simp only [htr, hc0, Bool.false_eq_true, if_false,
        ih fun q hq => hex q (List.mem_cons_of_mem p hq)]

theorem resolveEmailId_eq_scanPaths (w : World) (cid : List Char) (hint : Option String)
    (pre mid : List Char) (hparse : parseCompositeId cid = .ok (pre, mid)) :
    resolveEmailId w cid hint =
      (match scanPaths w mid (folderOrder w hint) with
       | (.error e, tr) => (.error e, tr)
       | (.ok (some r), tr) => (.ok r, tr)
       | (.ok none, tr) => (.error .notFound, tr)) := by
  unfold resolveEmailId folderOrder
  rw [hparse]
  dsimp only
  rw [scanFolders_eq_scanPaths]
  cases hint with
  | none =>
    simp only [triedList, List.nil_append, scanPaths_append]
    cases h2 : resolveInMailbox w mid "INBOX" with
    | error e => simp [scanPaths, h2]
    | ok uid =>
      by_cases ht : jsTruthyNat uid = true
      · simp [scanPaths, h2, ht]
      · simp only [Bool.not_eq_true] at ht
        simp only [scanPaths, h2, ht, Bool.false_eq_true, if_false, Option.some.injEq]
        rcases h3 : scanPaths w mid
            ((w.map (·.path)).filter (fun p => !(["INBOX"] : List String).contains p)) with
          ⟨res, tr⟩
        simp only [List.nil_append] at h3 ⊢
        rw [h3]
        cases res with
        | error e => rfl
        | ok o => cases o with
          | none => rfl
          | some r => rfl
  | some h =>
    by_cases hE : h = ""
    · subst hE
      simp only [triedList, scanPaths_append, beq_self_eq_true, if_true,
        List.nil_append,
        show (((some "" : Option String) == some "INBOX") = false) from rfl,
        Bool.false_eq_true, if_false]
      cases h2 : resolveInMailbox w mid "INBOX" with
      | error e => simp [scanPaths, h2]
      | ok uid =>
        by_cases ht : jsTruthyNat uid = true
        · simp [scanPaths, h2, ht]
        · simp only [Bool.not_eq_true] at ht
          simp only [scanPaths, h2, ht, Bool.false_eq_true, if_false]
          rcases h3 : scanPaths w mid
              ((w.map (·.path)).filter
                (fun p => !(["", "INBOX"] : List String).contains p)) with
            ⟨res, tr⟩
          simp only [List.singleton_append] at h3 ⊢
          rw [h3]
          cases res with
          | error e => rfl
          | ok o => cases o with
            | none => rfl
            | some r => rfl
    · have hE' : (h == "") = false := by simpa using hE
      by_cases hI : h = "INBOX"
      · subst hI
        simp only [triedList, scanPaths_append, beq_self_eq_true, if_true, List.append_nil,
          show (("INBOX" == "") = false) from rfl, Bool.false_eq_true, if_false]
        cases h1 : resolveInMailbox w mid "INBOX" with
        | error e => simp [scanPaths, h1]
        | ok uid =>
          by_cases ht : jsTruthyNat uid = true
          · simp [scanPaths, h1, ht]
          · simp only [Bool.not_eq_true] at ht
            simp only [scanPaths, h1, ht, Bool.false_eq_true, if_false]
            rcases h3 : scanPaths w mid
                ((w.map (·.path)).filter
                  (fun p => !(["INBOX", "INBOX"] : List String).contains p)) with
              ⟨res, tr⟩
            simp only [List.singleton_append] at h3 ⊢
            rw [h3]
            cases res with
            | error e => rfl
            | ok o => cases o with
              | none => rfl
              | some r => rfl
      · have hI' : ((some h : Option String) == some "INBOX") = false := by
          simp [hI]
        simp only [triedList, hI', hE', Bool.false_eq_true, if_false, scanPaths_append]
        cases h1 : resolveInMailbox w mid h with
        | error e => simp [scanPaths, h1]
        | ok uid =>
          by_cases ht : jsTruthyNat uid = true
          · simp [scanPaths, h1, ht]
          · simp only [Bool.not_eq_true] at ht
            simp only [scanPaths, h1, ht, Bool.false_eq_true, if_false]
            cases h2 : resolveInMailbox w mid "INBOX" with
            | error e => simp [scanPaths, h2]
            | ok uid2 =>
              by_cases ht2 : jsTruthyNat uid2 = true
              · simp [scanPaths, h2, ht2]
              · simp only [Bool.not_eq_true] at ht2
                simp only [scanPaths, h2, ht2, Bool.false_eq_true, if_false]
                rcases h3 : scanPaths w mid
                    ((w.map (·.path)).filter
                      (fun p => !([h, "INBOX"] : List String).contains p)) with
                  ⟨res, tr⟩
                simp only [List.singleton_append] at h3 ⊢
                rw [h3]
                cases res with
                | error e => rfl
                | ok o => cases o with
                  | none => rfl
                  | some r => rfl

/-! ## JS stable sort

`Array.prototype.sort` is stable; with the comparator `(a, b) => key(b) - key(a)`
it orders by `key` descending, keeping equal keys in their original relative
order. A stable sort consistent with that comparator is exactly stable
insertion sort for the relation `key b ≤ key a`. -/

/-- The order the comparator `(a, b) => key(b) - key(a)` induces: `a` may come
before `b` exactly when the comparator result is `≤ 0`. -/
def keyDescRel (key : α → Int) (a b : α) : Prop := key b ≤ key a

instance (key : α → Int) : DecidableRel (keyDescRel key) :=
  fun a b => inferInstanceAs (Decidable (key b ≤ key a))

instance (key : α → Int) : IsTotal α (keyDescRel key) :=
  ⟨fun a b => le_total (key b) (key a)⟩

instance (key : α → Int) : IsTrans α (keyDescRel key) :=
  ⟨fun _ _ _ hab hbc => le_trans hbc hab⟩

/-- `l.sort((a, b) => key(b) - key(a))`: stable sort by `key`, descending. -/
def sortByKeyDesc (key : α → Int) (l : List α) : List α :=
  List.insertionSort (keyDescRel key) l

theorem sortByKeyDesc_sorted (key : α → Int) (l : List α) :
    (sortByKeyDesc key l).Pairwise (fun a b => key b ≤ key a) :=
  List.sorted_insertionSort (keyDescRel key) l

theorem sortByKeyDesc_perm (key : α → Int) (l : List α) :
    (sortByKeyDesc key l).Perm l :=
  List.perm_insertionSort (keyDescRel key) l

theorem filter_orderedInsert_key (key : α → Int) (k : Int) (x : α) (l : List α) :
    (List.orderedInsert (keyDescRel key) x l).filter (fun a => key a == k) =
      if key x == k then x :: l.filter (fun a => key a == k)
      else l.filter (fun a => key a == k) := by
  induction l with
  | nil =>
    simp only [List.orderedInsert_nil, List.filter_cons, List.filter_nil]
  | cons b l ih =>
    by_cases hbx : keyDescRel key x b
    · rw [List.orderedInsert_of_le _ _ hbx]
      simp only [List.filter_cons]
    · have hlt : key x < key b := lt_of_not_le hbx
      simp only [List.orderedInsert, if_neg hbx, List.filter_cons, ih]
      by_cases hx : (key x == k) = true
      · have hbk : (key b == k) = false := by
          have : key b ≠ k := by
            have := beq_iff_eq.mp hx
            omega
          simpa using this
        simp [hx, hbk]
      · have hx' : (key x == k) = false := by simpa using hx
        simp only [hx', Bool.false_eq_true, if_false]

theorem filter_sortByKeyDesc (key : α → Int) (k : Int) (l : List α) :
    (sortByKeyDesc key l).filter (fun a => key a == k) =
      l.filter (fun a => key a == k) := by
  induction l with
  | nil => rfl
  | cons x l ih =>
    simp only [sortByKeyDesc, List.insertionSort] at ih ⊢
    rw [filter_orderedInsert_key, List.filter_cons]
    by_cases hx : (key x == k) = true
    · simp [hx, ih]
    · have hx' : (key x == k) = false := by simpa using hx
      simp [hx', ih]

theorem sortByKeyDesc_take_drop (key : α → Int) (l : List α) (n : Nat) :
    ∀ x ∈ (sortByKeyDesc key l).take n, ∀ y ∈ (sortByKeyDesc key l).drop n,
      key y ≤ key x := by
  have hp := sortByKeyDesc_sorted key l
  rw [← List.take_append_drop n (sortByKeyDesc key l)] at hp
  exact fun x hx y hy => (List.pairwise_append.mp hp).2.2 x hx y hy

/-! ## Listing operations (`src/imap/search.ts`, `src/imap/flags.ts`)

Each operation issues one search (the server's UID response is an
environment input), one bulk envelope fetch (the server's response to the
requested UID list is an environment input), builds entries, and re-sorts by
the fetched envelope date, descending. -/

/-- A JS value in an envelope `from` position (imapflow may give an address
object, an array of them, a bare string, or nothing). -/
inductive JsAddr where
  | nullv
  | str (s : String)
  | arr (l : List JsAddr)
  | obj (address : Option String)
deriving Repr

/-- `extractEmailAddress(addr)`: the bare address of the primary sender. -/
def extractEmailAddress : JsAddr → String
  | .nullv => ""
  | .str s => s
  | .arr [] => ""
  | .arr (a :: _) => extractEmailAddress a
  | .obj address => address.getD ""

/-- An IMAP envelope as fetched (all fields may be absent). -/
structure Envelope where
  date : Option Timestamp
  messageId : Option (List Char)
  subject : Option String
  sender : Option JsAddr

/-- One message of a fetch response. -/
structure FetchedMsg where
  uid : Nat
  envelope : Option Envelope

/-- The lightweight listing entry. The `date` field holds the envelope date
whose ISO rendering the code stores (`none` models the empty string used
when the envelope has no date). -/
structure EmailEntry where
  id : List Char
  subject : String
  fromAddr : String
  date : Option Timestamp

/-- Entry construction shared by all listing loops:
`id` from `buildCompositeId(msg.envelope?.date || new Date(0), msg.envelope?.messageId || "")`,
`subject` defaulting to `"(no subject)"`, `from` through `extractEmailAddress`,
`date` from the envelope date (empty when absent). -/
def entryOfMsg (m : FetchedMsg) : EmailEntry :=
  { id := buildCompositeId ((m.envelope.bind (·.date)).getD epochTimestamp)
      ((m.envelope.bind (·.messageId)).getD [])
    subject := jsOrStr (m.envelope.bind (·.subject)) "(no subject)"
    fromAddr := extractEmailAddress ((m.envelope.bind (·.sender)).getD .nullv)
    date := m.envelope.bind (·.date) }

/-- The comparator key of the final re-sort:
`a.date ? new Date(a.date).getTime() : 0` (re-parsing the stored ISO string
recovers the envelope date's epoch milliseconds). -/
def dateKey (e : EmailEntry) : Int :=
  match e.date with
  | none => 0
  | some t => t.toMillis

/-- The server's responses to one listing call: the UID search result and
the fetch response for a requested UID list. -/
structure ListEnv where
  searchResult : List Nat
  fetchResult : List Nat → List FetchedMsg

/-- `uids.sort((a, b) => b - a)`: UIDs sorted descending. -/
def sortUidsDesc (uids : List Nat) : List Nat :=
  sortByKeyDesc (fun u => (u : Int)) uids

/-- `listEmails(imapClient, since?, mailbox)`: search (the `since` filter is
applied by the server), sort the UIDs descending, fetch envelopes, build
entries, and re-sort by envelope date descending. -/
def listEmails (env : ListEnv) : List EmailEntry :=
  let uids := env.searchResult
  if uids.isEmpty then []
  else
    let sortedUids := sortUidsDesc uids
    let results := (env.fetchResult sortedUids).map entryOfMsg
    sortByKeyDesc dateKey results

/-- `listEmailsFromDomain(imapClient, domain, mailbox)`: the search uses the
filter value `@domain`; the post-processing is identical to `listEmails`. -/
def listEmailsFromDomain (env : ListEnv) : List EmailEntry :=
  let uids := env.searchResult
  if uids.isEmpty then []
  else
    let sortedUids := sortUidsDesc uids
    let results := (env.fetchResult sortedUids).map entryOfMsg
    sortByKeyDesc dateKey results

/-- `listEmailsFromSender(imapClient, sender, mailbox)`. -/
def listEmailsFromSender (env : ListEnv) : List EmailEntry :=
  let uids := env.searchResult
  if uids.isEmpty then []
  else
    let sortedUids := sortUidsDesc uids
    let results := (env.fetchResult sortedUids).map entryOfMsg
    sortByKeyDesc dateKey results

/-- `listStarredEmails(imapClient, mailbox)` (`src/imap/flags.ts`): searches
`{flagged: true}`; the post-processing is identical to `listEmails`. -/
def listStarredEmails (env : ListEnv) : List EmailEntry :=
  let uids := env.searchResult
  if uids.isEmpty then []
  else
    let sortedUids := sortUidsDesc uids
    let results := (env.fetchResult sortedUids).map entryOfMsg
    sortByKeyDesc dateKey results

/-- `listInboxMessages(imapClient, count, mailbox)`: searches all, takes the
`count` highest UIDs (`sort` descending then `slice(0, count)`), fetches
only those, and re-sorts the fetched subset by envelope date descending. -/
def listInboxMessages (env : ListEnv) (count : Nat) : List EmailEntry :=
  let uids := env.searchResult
  if uids.isEmpty then []
  else
    let sortedUids := (sortUidsDesc uids).take count
    let results := (env.fetchResult sortedUids).map entryOfMsg
    sortByKeyDesc dateKey results

/-- The UID subset `listInboxMessages` fetches. -/
def selectedUids (env : ListEnv) (count : Nat) : List Nat :=
  (sortUidsDesc env.searchResult).take count

/-- The entries a full-fetch listing call builds, in fetch-response order
(the pre-sort sequence). -/
def fetchedEntries (env : ListEnv) : List EmailEntry :=
  if env.searchResult.isEmpty then []
  else (env.fetchResult (sortUidsDesc env.searchResult)).map entryOfMsg

/-- The entries `listInboxMessages` builds, in fetch-response order. -/
def fetchedEntriesTake (env : ListEnv) (count : Nat) : List EmailEntry :=
  if env.searchResult.isEmpty then []
  else (env.fetchResult (selectedUids env count)).map entryOfMsg

theorem listEmails_eq_sorted (env : ListEnv) :
    listEmails env = sortByKeyDesc dateKey (fetchedEntries env) := by
  unfold listEmails fetchedEntries
  by_cases h : env.searchResult.isEmpty <;> simp [h, sortByKeyDesc, List.insertionSort]

theorem listStarredEmails_eq_sorted (env : ListEnv) :
    listStarredEmails env = sortByKeyDesc dateKey (fetchedEntries env) := by
  unfold listStarredEmails fetchedEntries
  by_cases h : env.searchResult.isEmpty <;> simp [h, sortByKeyDesc, List.insertionSort]

theorem listEmailsFromDomain_eq_sorted (env : ListEnv) :
    listEmailsFromDomain env = sortByKeyDesc dateKey (fetchedEntries env) := by
  unfold listEmailsFromDomain fetchedEntries
  by_cases h : env.searchResult.isEmpty <;> simp [h, sortByKeyDesc, List.insertionSort]

theorem listEmailsFromSender_eq_sorted (env : ListEnv) :
    listEmailsFromSender env = sortByKeyDesc dateKey (fetchedEntries env) := by
  unfold listEmailsFromSender fetchedEntries
  by_cases h : env.searchResult.isEmpty <;> simp [h, sortByKeyDesc, List.insertionSort]

theorem listInboxMessages_eq_sorted (env : ListEnv) (count : Nat) :
    listInboxMessages env count = sortByKeyDesc dateKey (fetchedEntriesTake env count) := by
  unfold listInboxMessages fetchedEntriesTake selectedUids
  by_cases h : env.searchResult.isEmpty <;> simp [h, sortByKeyDesc, List.insertionSort]

/-! ## Connection manager (`src/imap/client.ts`) -/

/-- A JS `Error` object as the classifiers inspect it. -/
structure JsError where
  message : String
  code : Option String := none
  authenticationFailed : Bool := false
deriving DecidableEq, Repr

/-- A thrown JS value: an `Error`, or anything else (`instanceof Error` fails). -/
inductive JsValue where
  | error (e : JsError)
  | nonError (s : String)
deriving DecidableEq, Repr

/-- Whether `needle` occurs as a contiguous substring of `hay`. -/
def containsSub (needle : List Char) : List Char → Bool
  | [] => needle.isEmpty
  | c :: t => needle.isPrefixOf (c :: t) || containsSub needle t

/-- Case-insensitive substring test: the model of `/pat/i.test(s)` for a
literal alternative `pat`. -/
def containsCI (hay needle : String) : Bool :=
  containsSub needle.toLower.data hay.toLower.data

/-- The IMAP configuration (`src/imap/types.ts` plus the transport-security
fields `createClientFromEnv` reads). -/
structure ImapConfig where
  host : String
  port : Nat
  secure : Bool
  starttls : Bool
  tlsRejectUnauthorized : Bool
  user : String
  pass : String
deriving DecidableEq, Repr

/-- `classifyImapError(error, config)`: map a thrown value to one fixed,
actionable error message, by structured attribute first
(`authenticationFailed`, `code`), then by case-insensitive substring match
on the message text, with a tagged pass-through fallback. -/
def classifyImapError (error : JsValue) (config : ImapConfig) : JsError :=
  match error with
  | .nonError s => { message := "IMAP error: " ++ s }
  | .error err =>
    if err.authenticationFailed then
      { message := "IMAP authentication failed - check IMAP_USER and IMAP_PASS credentials." }
    else if err.code == some "ECONNREFUSED" then
      { message := "Cannot reach IMAP server at " ++ config.host ++ ":" ++
          toString config.port ++ " - connection refused. Is the server running?" }
    else if err.code == some "ENOTFOUND" then
      { message := "Cannot resolve IMAP server hostname " ++ config.host ++
          " - check IMAP_HOST." }
    else if err.code == some "ETIMEDOUT" || err.code == some "CONNECT_TIMEOUT" then
      { message := "Connection to IMAP server timed out - server may be slow or unreachable." }
    else if (match err.code with
             | some c => c.startsWith "ERR_TLS"
             | none => false) ||
        containsCI err.message "tls" || containsCI err.message "certificate" then
      { message := "TLS/SSL error connecting to IMAP server - check IMAP_SECURE setting." }
    else
      { message := "IMAP error: " ++ err.message }

/-- The transport error codes `isRetryableMailboxLockError` treats as
connection related. -/
def retryableLockCodes : List String :=
  ["ECONNRESET", "EPIPE", "ETIMEDOUT", "ECONNREFUSED", "ENOTFOUND",
    "EHOSTUNREACH", "ENETUNREACH", "EAI_AGAIN"]

/-- `isRetryableMailboxLockError(error)`: a lock-acquisition failure is
retryable when it is an `Error` carrying one of the transport error codes,
or whose message matches
`/connection|socket|not connected|closed|broken pipe|timeout/i`. -/
def isRetryableMailboxLockError : JsValue → Bool
  | .nonError _ => false
  | .error err =>
    (match err.code with
     | some c => c != "" && retryableLockCodes.contains c
     | none => false) ||
    (containsCI err.message "connection" || containsCI err.message "socket" ||
      containsCI err.message "not connected" || containsCI err.message "closed" ||
      containsCI err.message "broken pipe" || containsCI err.message "timeout")

/-- The transport environment of one `ImapClient`: whether a cached session
is still usable when reused, whether creating the n-th session fails (and
with what), and the server's response to a lock acquisition on a given
session. Sessions are numbered in creation order. -/
structure ConnEnv where
  usable : Nat → Bool
  connectErr : Nat → Option JsValue
  lockResult : Nat → String → Except JsValue Unit

/-- The `ImapClient`'s mutable state: the cached session (if any) and the
number of the next session to create. -/
structure CMState where
  client : Option Nat
  nextId : Nat
deriving DecidableEq, Repr

namespace ImapClient

/-- `ImapClient.connect()`: discard the cached session when no longer
usable, reuse it otherwise, else create a fresh one (classifying a
creation failure). Returns the session used and the updated state. -/
def connect (env : ConnEnv) (cfg : ImapConfig) (s : CMState) :
    Except JsError Nat × CMState :=
  let s1 := match s.client with
    | some c => if env.usable c then s else { s with client := none }
    | none => s
  match s1.client with
  | some c => (.ok c, s1)
  | none =>
    match env.connectErr s1.nextId with
    | some e => (.error (classifyImapError e cfg), s1)
    | none => (.ok s1.nextId, { client := some s1.nextId, nextId := s1.nextId + 1 })

/-- `ImapClient.openMailbox(path)`: connect, attempt the lock; when the
attempt fails with a retryable (connection-related) failure, discard the
session, reconnect, and retry exactly once, propagating the second outcome
unchanged; a non-retryable failure propagates immediately. The third
component lists the sessions on which a lock acquisition was attempted,
in order. -/
def openMailbox (env : ConnEnv) (cfg : ImapConfig) (s : CMState) (path : String) :
    Except JsValue Nat × CMState × List Nat :=
  match connect env cfg s with
  | (.error e, s1) => (.error (.error e), s1, [])
  | (.ok c, s1) =>
    match env.lockResult c path with
    | .ok _ => (.ok c, s1, [c])
    | .error e =>
      if !isRetryableMailboxLockError e then (.error e, s1, [c])
      else
        let s2 : CMState := { s1 with client := none }
        match connect env cfg s2 with
        | (.error e2, s3) => (.error (.error e2), s3, [c])
        | (.ok c2, s3) =>
          match env.lockResult c2 path with
          | .ok _ => (.ok c2, s3, [c, c2])
          | .error e2 => (.error e2, s3, [c, c2])

/-- Sessions the client has cached were created earlier than `nextId`. -/
def WF (s : CMState) : Prop := ∀ c, s.client = some c → c < s.nextId

theorem connect_ok_lt (env : ConnEnv) (cfg : ImapConfig) (s : CMState)
    (hwf : WF s) (c : Nat) (s1 : CMState)
    (h : connect env cfg s = (.ok c, s1)) : c < s1.nextId := by
  unfold connect at h
  cases hc : s.client with
  | none =>
    simp only [hc] at h
    cases he : env.connectErr s.nextId with
    | some e =>
      rw [he] at h
      have := congrArg Prod.fst h
      simp at this
    | none =>
      rw [he] at h
      have h1 := congrArg Prod.fst h
      have h2 := congrArg Prod.snd h
      simp only at h1 h2
      have hcc : s.nextId = c := by simpa using h1
      rw [← h2, ← hcc]
      exact Nat.lt_succ_self _
  | some c0 =>
    simp only [hc] at h
    by_cases hu : env.usable c0 = true
    · simp only [hu, if_true, hc] at h
      have h1 := congrArg Prod.fst h
      have h2 := congrArg Prod.snd h
      simp only at h1 h2
      have hcc : c0 = c := by simpa using h1
      rw [← h2, ← hcc]
      exact hwf c0 hc
    · have hu' : env.usable c0 = false := by simpa using hu
      simp only [hu', Bool.false_eq_true, if_false] at h
      cases he : env.connectErr s.nextId with
      | some e =>
        simp only [he] at h
        have := congrArg Prod.fst h
        simp at this
      | none =>
        simp only [he] at h
        have h1 := congrArg Prod.fst h
        have h2 := congrArg Prod.snd h
        simp only at h1 h2
        have hcc : s.nextId = c := by simpa using h1
        rw [← h2, ← hcc]
        exact Nat.lt_succ_self _

end ImapClient

/-! ## Protocol command traces

The mutation operations additionally return the list of folder-scoped
protocol commands they issued, in order, so that claims about command
counts and ordering can be stated. -/

/-- A protocol command issued against the server. -/
inductive Cmd where
  | listCmd
  | openCmd (folder : String)
  | fetchCmd (folder : String) (uid : Nat)
  | searchHeaderCmd (folder : String) (messageId : List Char)
  | searchFromCmd (folder : String) (fromQuery : String)
  | appendCmd (folder : String) (raw : List Char)
  | deleteCmd (folder : String) (uid : Nat)
  | moveCmd (folder : String) (uids : List Nat) (destination : String)
deriving DecidableEq, Repr

/-! ## Folders (`src/imap/folders.ts`) -/

/-- `folderExists(imapClient, path)`. -/
def folderExists (w : World) (path : String) : Bool :=
  w.any (fun f => f.path == path)

/-- The server's response to the one search `bulkMoveBySender` issues. -/
structure BulkEnv where
  searchResult : List Nat

/-- `bulkMoveBySender(imapClient, sourceFolder, destinationFolder, fromQuery)`:
one FROM search in the source folder; when it matched, one bulk move of the
whole UID set; returns the number of matches (0 with no move command when
nothing matched). -/
def bulkMoveBySender (env : BulkEnv) (sourceFolder destinationFolder : String)
    (fromQuery : String) : Nat × List Cmd :=
  let uids := env.searchResult
  if uids.isEmpty then
    (0, [.openCmd sourceFolder, .searchFromCmd sourceFolder fromQuery])
  else
    (uids.length,
      [.openCmd sourceFolder, .searchFromCmd sourceFolder fromQuery,
        .moveCmd sourceFolder uids destinationFolder])

/-- The JSON payload of a successful bulk-move tool call. -/
structure BulkMoveOk where
  moved : Nat
  source_folder : String
  destination_folder : String
  sender : String
deriving DecidableEq, Repr

/-- Modelled from the spec: the `bulk_move_by_sender_email` tool handler is
code of this repository that is not in the snapshot (only its tests are).
Per §4.5/§8 of the spec and the tests, it validates its arguments, checks
that the source and destination folders exist, calls `bulkMoveBySender`
once, and reports 0 matches as a caller-visible "No emails from ..." error
condition rather than an ordinary success with a zero count. -/
def bulk_move_by_sender_email_handler (env : BulkEnv) (w : World)
    (sender source_folder destination_folder : String) :
    Except String BulkMoveOk × List Cmd :=
  if sender == "" || source_folder == "" || destination_folder == "" then
    (.error "Error: sender, source_folder, and destination_folder are required.", [])
  else if !folderExists w source_folder then
    (.error ("Source folder not found: " ++ source_folder), [.listCmd])
  else if !folderExists w destination_folder then
    (.error ("Destination folder not found: " ++ destination_folder), [.listCmd, .listCmd])
  else
    let r := bulkMoveBySender env source_folder destination_folder sender
    if r.1 == 0 then
      (.error ("No emails from " ++ sender ++ " found in " ++ source_folder ++ "."),
        [.listCmd, .listCmd] ++ r.2)
    else
      (.ok { moved := r.1, source_folder := source_folder,
             destination_folder := destination_folder, sender := sender },
        [.listCmd, .listCmd] ++ r.2)

/-! ## Drafts (`src/imap/drafts.ts`) -/

/-- `findDraftsFolder(imapClient)`: the first folder advertising the
`\Drafts` special use, else the first folder named `Drafts`
(case-insensitively), else a discoverability error. -/
def findDraftsFolder (w : World) : Except JsError String :=
  match w.find? (fun mb => mb.specialUse == some "\\Drafts") with
  | some mb => .ok mb.path
  | none =>
    match w.find? (fun mb => mb.name.toLower == "drafts") with
    | some mb => .ok mb.path
    | none =>
      .error { message :=
        "Could not find Drafts folder. Available folders can be listed with list_folders." }

/-- A line terminator for the purposes of `^`/`$` with the `m` regex flag. -/
def isLineTerm (c : Char) : Bool := c == '\n' || c == '\r'

/-- JS whitespace (the common subset of `\s` / `trim()`). -/
def jsWhitespace (c : Char) : Bool :=
  c == ' ' || c == '\t' || c == '\n' || c == '\r' ||
    c == Char.ofNat 11 || c == Char.ofNat 12

/-- `String.prototype.trim()`. -/
def jsTrim (l : List Char) : List Char :=
  ((l.dropWhile jsWhitespace).reverse.dropWhile jsWhitespace).reverse

/-- One match attempt of `\s*(.+)$` against `t`, the text following a
`Message-ID:` prefix (to the end of the string): `\s*` greedily consumes
whitespace (line terminators included, so a match may continue on a later
line), `(.+)` then captures a non-empty run of non-terminator characters
ending at a line boundary; `none` when every backtrack fails. The returned
value is already `trim()`ed as the caller does. -/
def captureAt (t : List Char) : Option (List Char) :=
  let w0 := t.dropWhile jsWhitespace
  if !w0.isEmpty then some (jsTrim (w0.takeWhile (fun c => !isLineTerm c)))
  else if t.any (fun c => !isLineTerm c) then some []
  else none

/-- The scan of `raw.match(/^Message-ID:\s*(.+)$/mi)`: try every line-start
position in order, matching the case-insensitive `Message-ID:` literal and
then `\s*(.+)$`; the first position where the whole pattern matches wins. -/
def scanMessageId : List Char → Bool → Option (List Char)
  | [], _ => none
  | c :: rest, atStart =>
    if atStart &&
        "message-id:".data.isPrefixOf ((c :: rest).map Char.toLower) then
      match captureAt ((c :: rest).drop 11) with
      | some v => some v
      | none => scanMessageId rest (isLineTerm c)
    else scanMessageId rest (isLineTerm c)

/-- `raw.match(/^Message-ID:\s*(.+)$/mi)` followed by `[1].trim()`, the empty
string when nothing matched. -/
def extractGeneratedMessageId (raw : List Char) : List Char :=
  match scanMessageId raw true with
  | some v => v
  | none => []

/-- The draft-composition inputs (`DraftOptions`). -/
structure DraftOptions where
  toAddr : String
  subject : String
  body : String
  cc : Option String := none
  bcc : Option String := none
  inReplyTo : Option (List Char) := none

/-- The result of a draft creation (`DraftResult`; `date` holds the client
clock value whose ISO rendering the code returns). -/
structure DraftResult where
  id : List Char
  subject : String
  toAddr : String
  date : Timestamp

/-- The environment of one draft operation: the MIME composer (an external
capability: sender, options and threading Message-ID to raw message bytes),
the client clock, the UID the server assigns on append, and whether the
append / delete commands fail. -/
structure DraftEnv where
  composeRaw : String → DraftOptions → Option (List Char) → List Char
  now : Timestamp
  newUid : Nat
  appendResult : Option JsError := none
  deleteResult : Option JsError := none

/-- Appending a message to the folder at `path`. -/
def appendTo (w : World) (path : String) (m : Msg) : World :=
  w.map (fun f => if f.path == path then { f with msgs := f.msgs ++ [m] } else f)

/-- Deleting the message with UID `uid` from the folder at `path`. -/
def deleteFrom (w : World) (path : String) (uid : Nat) : World :=
  w.map (fun f =>
    if f.path == path then { f with msgs := f.msgs.filter (fun m => m.uid != uid) } else f)

/-- The threading Message-ID `createDraft` derives from `options.inReplyTo`:
absent when no reply target is given, otherwise the parsed identifier's
Message-ID segment (`null` when that segment is empty). -/
def parsedReplyOf (options : DraftOptions) : Except JsError (Option (List Char)) :=
  match options.inReplyTo with
  | none => .ok none
  | some cid =>
    match parseCompositeId cid with
    | .error e => .error { message := e }
    | .ok (_, messageId) => .ok (if messageId.isEmpty then none else some messageId)

/-- `createDraft(imapClient, sender, options)`: parse `inReplyTo` when given,
compose the raw message, extract the generated Message-ID from it, find the
drafts folder, append, and return a composite ID built from the current
client clock and the extracted Message-ID. -/
def createDraft (env : DraftEnv) (w : World) (sender : String)
    (options : DraftOptions) : Except JsError DraftResult × List Cmd × World :=
  match parsedReplyOf options with
  | .error e => (.error e, [], w)
  | .ok replyMessageId =>
    let raw := env.composeRaw sender options replyMessageId
    let generatedMessageId := extractGeneratedMessageId raw
    match findDraftsFolder w with
    | .error e => (.error e, [.listCmd], w)
    | .ok draftsFolder =>
      match env.appendResult with
      | some e => (.error e, [.listCmd, .appendCmd draftsFolder raw], w)
      | none =>
        (.ok { id := buildCompositeId env.now generatedMessageId,
               subject := options.subject, toAddr := options.toAddr, date := env.now },
          [.listCmd, .appendCmd draftsFolder raw],
          appendTo w draftsFolder { uid := env.newUid, messageId := generatedMessageId })

/-- `updateDraft(imapClient, sender, uid, options)`: find the drafts folder,
verify under its lock that `uid` is present there (a scoping error
otherwise), append the replacement via `createDraft`, then delete the old
draft's UID. -/
def updateDraft (env : DraftEnv) (w : World) (sender : String) (uid : Nat)
    (options : DraftOptions) : Except JsError DraftResult × List Cmd × World :=
  match findDraftsFolder w with
  | .error e => (.error e, [.listCmd], w)
  | .ok draftsFolder =>
    let found :=
      match findMailbox w draftsFolder with
      | some f => f.msgs.any (fun m => m.uid == uid)
      | none => false
    if !found then
      (.error { message :=
          "You can only update drafts. The email you provided is not in the drafts folder." },
        [.listCmd, .openCmd draftsFolder, .fetchCmd draftsFolder uid], w)
    else
      match createDraft env w sender options with
      | (.error e, tr, w1) =>
        (.error e, [.listCmd, .openCmd draftsFolder, .fetchCmd draftsFolder uid] ++ tr, w1)
      | (.ok newDraft, tr, w1) =>
        match env.deleteResult with
        | some e =>
          (.error e,
            [.listCmd, .openCmd draftsFolder, .fetchCmd draftsFolder uid] ++ tr ++
              [.openCmd draftsFolder, .deleteCmd draftsFolder uid],
            w1)
        | none =>
          (.ok newDraft,
            [.listCmd, .openCmd draftsFolder, .fetchCmd draftsFolder uid] ++ tr ++
              [.openCmd draftsFolder, .deleteCmd draftsFolder uid],
            deleteFrom w1 draftsFolder uid)

/-- The `update_draft` tool handler (`src/tools/index.ts`): validate the
arguments, resolve the identifier in the drafts folder specifically, reject
with a scoping error when it does not resolve there, else delegate to
`updateDraft` with the resolved UID. -/
def update_draft_handler (env : DraftEnv) (w : World) (sender : String)
    (id : List Char) (toAddr subject body : String) (cc bcc : Option String)
    (inReplyTo : Option (List Char)) :
    Except String DraftResult × List Cmd × World :=
  if id.isEmpty || toAddr == "" || subject == "" || body == "" then
    (.error "Error: id, to, subject, and body are required.", [], w)
  else
    match findDraftsFolder w with
    | .error e => (.error e.message, [.listCmd], w)
    | .ok draftsFolder =>
      match parseCompositeId id with
      | .error e => (.error e, [.listCmd], w)
      | .ok (_, messageId) =>
        match resolveInMailbox w messageId draftsFolder with
        | .error _ => (.error "IMAP error", [.listCmd, .openCmd draftsFolder], w)
        | .ok uid =>
          if !jsTruthyNat uid then
            (.error "Draft not found. The id must refer to an email in the Drafts folder.",
              [.listCmd, .openCmd draftsFolder, .searchHeaderCmd draftsFolder messageId], w)
          else
            match updateDraft env w sender (uid.getD 0)
                { toAddr := toAddr, subject := subject, body := body,
                  cc := cc, bcc := bcc, inReplyTo := inReplyTo } with
            | (.error e, tr, w1) =>
              (.error e.message,
                [.listCmd, .openCmd draftsFolder, .searchHeaderCmd draftsFolder messageId] ++ tr,
                w1)
            | (.ok r, tr, w1) =>
              (.ok r,
                [.listCmd, .openCmd draftsFolder, .searchHeaderCmd draftsFolder messageId] ++ tr,
                w1)

/-! ## Helper lemmas for the claim theorems -/

/-- Command classifiers, for counting commands in a trace. -/
def Cmd.isAppend : Cmd → Bool
  | .appendCmd _ _ => true
  | _ => false

def Cmd.isDelete : Cmd → Bool
  | .deleteCmd _ _ => true
  | _ => false

def Cmd.isMove : Cmd → Bool
  | .moveCmd _ _ _ => true
  | _ => false

def Cmd.isSearchFrom : Cmd → Bool
  | .searchFromCmd _ _ => true
  | _ => false

/-- The messages of the folder at `p` (empty when the path is unknown). -/
def msgsIn (w : World) (p : String) : List Msg :=
  match findMailbox w p with
  | some f => f.msgs
  | none => []

theorem findMailbox_isSome_of_mem_path (w : World) (p : String)
    (h : p ∈ w.map (·.path)) : (findMailbox w p).isSome := by
  obtain ⟨f, hf, hfp⟩ := List.mem_map.mp h
  unfold findMailbox
  rw [List.find?_isSome]
  exact ⟨f, hf, by simp [hfp]⟩

theorem findMailbox_appendTo (w : World) (p : String) (m : Msg) (f : MailboxInfo)
    (h : findMailbox w p = some f) :
    findMailbox (appendTo w p m) p = some { f with msgs := f.msgs ++ [m] } := by
  unfold findMailbox appendTo at *
  induction w with
  | nil => simp at h
  | cons g w ih =>
    by_cases hg : (g.path == p) = true
    · have hfg : g = f := by
        rw [@List.find?_cons_of_pos _ (fun f => f.path == p) g w hg] at h
        exact Option.some.inj h
      subst hfg
      simp only [List.map_cons, if_pos hg]
      exact @List.find?_cons_of_pos _ (fun f => f.path == p)
        { g with msgs := g.msgs ++ [m] } _ hg
    · have hg' : (g.path == p) = false := by simpa using hg
      rw [@List.find?_cons_of_neg _ (fun f => f.path == p) g w (by simp [hg'])] at h
      simp only [List.map_cons, if_neg (show ¬((g.path == p) = true) by simp [hg'])]
      rw [@List.find?_cons_of_neg _ (fun f => f.path == p) g _ (by simp [hg'])]
      exact ih h

/-! ## Claim theorems -/

/-- C2: for every valid timestamp `t` and every header string `h` (including
the empty string), decoding the identifier produced by encoding `(t, h)`
yields exactly the pair of `t` truncated to whole seconds in the fixed
19-character sortable form and `h` verbatim. -/
theorem C2_decode_encode_roundtrip (t : Timestamp) (h : List Char)
    (_hv : t.valid) :
    parseCompositeId (buildCompositeId t h) = .ok (isoSecond t, h) ∧
      (isoSecond t).length = 19 :=
  ⟨parseCompositeId_buildCompositeId t h, isoSecond_length t⟩

theorem C2_decode_encode_roundtrip_witness :
    (⟨2026, 2, 12, 14, 30, 25, 0⟩ : Timestamp).valid ∧
    (parseCompositeId
        (buildCompositeId ⟨2026, 2, 12, 14, 30, 25, 0⟩ "<abc123@mail.example.com>".data) =
      .ok (isoSecond ⟨2026, 2, 12, 14, 30, 25, 0⟩, "<abc123@mail.example.com>".data) ∧
      (isoSecond (⟨2026, 2, 12, 14, 30, 25, 0⟩ : Timestamp)).length = 19) :=
  ⟨by decide,
    C2_decode_encode_roundtrip ⟨2026, 2, 12, 14, 30, 25, 0⟩
      "<abc123@mail.example.com>".data (by decide)⟩

/-- C9: for every input string, decoding fails exactly when the string is
shorter than 20 characters or its 20th character (index 19) is not the dot
separator — never for any other reason; in particular no calendar
validation of the 19-character timestamp segment is performed. -/
theorem C9_parse_fails_iff (s : List Char) :
    (∃ e, parseCompositeId s = .error e) ↔
      (s.length < 20 ∨ s[19]? ≠ some '.') := by
  unfold parseCompositeId
  by_cases hc : (s.length < 20 || s[19]? != some '.') = true
  · simp only [hc, if_true]
    constructor
    · intro _
      rcases Bool.or_eq_true _ _ |>.mp hc with h | h
      · exact Or.inl (by simpa using h)
      · exact Or.inr (by simpa using h)
    · intro _
      exact ⟨_, rfl⟩
  · have hc' : (s.length < 20 || s[19]? != some '.') = false := by
      simpa using hc
    simp only [hc', Bool.false_eq_true, if_false]
    rw [Bool.or_eq_false_iff] at hc'
    obtain ⟨h1, h2⟩ := hc'
    constructor
    · rintro ⟨e, he⟩
      exact Except.noConfusion he
    · intro hor
      exfalso
      rcases hor with h | h
      · exact absurd h (by simpa using h1)
      · exact absurd h (by simpa using h2)

/-- C6: for every listing operation and every server response, the returned
sequence is sorted by the fetched envelope timestamp, descending (not by the
UID order of the search), and entries with equal timestamps keep the stable
relative order they had in the fetch response. -/
theorem C6_listings_sorted_stable (env : ListEnv) (count : Nat) :
    ((listEmails env).Pairwise (fun a b => dateKey b ≤ dateKey a) ∧
      ∀ k, (listEmails env).filter (fun a => dateKey a == k) =
        (fetchedEntries env).filter (fun a => dateKey a == k)) ∧
    ((listEmailsFromDomain env).Pairwise (fun a b => dateKey b ≤ dateKey a) ∧
      ∀ k, (listEmailsFromDomain env).filter (fun a => dateKey a == k) =
        (fetchedEntries env).filter (fun a => dateKey a == k)) ∧
    ((listEmailsFromSender env).Pairwise (fun a b => dateKey b ≤ dateKey a) ∧
      ∀ k, (listEmailsFromSender env).filter (fun a => dateKey a == k) =
        (fetchedEntries env).filter (fun a => dateKey a == k)) ∧
    ((listStarredEmails env).Pairwise (fun a b => dateKey b ≤ dateKey a) ∧
      ∀ k, (listStarredEmails env).filter (fun a => dateKey a == k) =
        (fetchedEntries env).filter (fun a => dateKey a == k)) ∧
    ((listInboxMessages env count).Pairwise (fun a b => dateKey b ≤ dateKey a) ∧
      ∀ k, (listInboxMessages env count).filter (fun a => dateKey a == k) =
        (fetchedEntriesTake env count).filter (fun a => dateKey a == k)) := by
  refine ⟨⟨?_, ?_⟩, ⟨?_, ?_⟩, ⟨?_, ?_⟩, ⟨?_, ?_⟩, ⟨?_, ?_⟩⟩
  · rw [listEmails_eq_sorted]; exact sortByKeyDesc_sorted dateKey _
  · intro k; rw [listEmails_eq_sorted]; exact filter_sortByKeyDesc dateKey k _
  · rw [listEmailsFromDomain_eq_sorted]; exact sortByKeyDesc_sorted dateKey _
  · intro k; rw [listEmailsFromDomain_eq_sorted]; exact filter_sortByKeyDesc dateKey k _
  · rw [listEmailsFromSender_eq_sorted]; exact sortByKeyDesc_sorted dateKey _
  · intro k; rw [listEmailsFromSender_eq_sorted]; exact filter_sortByKeyDesc dateKey k _
  · rw [listStarredEmails_eq_sorted]; exact sortByKeyDesc_sorted dateKey _
  · intro k; rw [listStarredEmails_eq_sorted]; exact filter_sortByKeyDesc dateKey k _
  · rw [listInboxMessages_eq_sorted]; exact sortByKeyDesc_sorted dateKey _
  · intro k; rw [listInboxMessages_eq_sorted]; exact filter_sortByKeyDesc dateKey k _

/-- C8: `listMostRecent(n)` selects the subset to fetch by UID value — the
`n` highest-valued UIDs — then returns that subset re-sorted by timestamp
descending; `n` at least the number of available messages selects all of
them and does not fail. -/
theorem C8_listMostRecent_selection (env : ListEnv) (count : Nat) :
    (sortUidsDesc env.searchResult).Perm env.searchResult ∧
    (selectedUids env count).length = min count env.searchResult.length ∧
    (∀ x ∈ selectedUids env count,
      ∀ y ∈ (sortUidsDesc env.searchResult).drop count, y ≤ x) ∧
    listInboxMessages env count = sortByKeyDesc dateKey (fetchedEntriesTake env count) ∧
    (listInboxMessages env count).Pairwise (fun a b => dateKey b ≤ dateKey a) ∧
    (env.searchResult.length ≤ count →
      selectedUids env count = sortUidsDesc env.searchResult ∧
      listInboxMessages env count = sortByKeyDesc dateKey (fetchedEntries env)) := by
  have hperm : (sortUidsDesc env.searchResult).Perm env.searchResult :=
    sortByKeyDesc_perm _ _
  refine ⟨hperm, ?_, ?_, listInboxMessages_eq_sorted env count, ?_, ?_⟩
  · unfold selectedUids
    rw [List.length_take, hperm.length_eq]
  · intro x hx y hy
    have hx' : x ∈ (sortByKeyDesc (fun u : Nat => (u : Int)) env.searchResult).take count := hx
    have hy' : y ∈ (sortByKeyDesc (fun u : Nat => (u : Int)) env.searchResult).drop count := hy
    have h := @sortByKeyDesc_take_drop Nat (fun u : Nat => (u : Int)) env.searchResult count x hx' y hy'
    simp only at h
    exact_mod_cast h
  · rw [listInboxMessages_eq_sorted]
    exact sortByKeyDesc_sorted dateKey _
  · intro hle
    have ht : (sortUidsDesc env.searchResult).take count = sortUidsDesc env.searchResult := by
      apply List.take_of_length_le
      rw [hperm.length_eq]
      exact hle
    have hsel : selectedUids env count = sortUidsDesc env.searchResult := ht
    refine ⟨hsel, ?_⟩
    rw [listInboxMessages_eq_sorted]
    unfold fetchedEntriesTake fetchedEntries
    rw [hsel]

def envC8 : ListEnv :=
  { searchResult := [3, 1, 5]
    fetchResult := fun uids => uids.map (fun u =>
      { uid := u
        envelope := some
          { date := some ⟨2026, 2, u, 10, 0, 0, 0⟩
            messageId := some "<m@x>".data
            subject := some "s"
            sender := some (.obj (some "a@x")) } }) }

theorem C8_listMostRecent_selection_witness :
    selectedUids envC8 5 = [5, 3, 1] ∧
    listInboxMessages envC8 5 = sortByKeyDesc dateKey (fetchedEntries envC8) := by
  have h := C8_listMostRecent_selection envC8 5
  have h2 := h.2.2.2.2.2 (by decide)
  exact ⟨h2.1.trans (by rfl), h2.2⟩

/-- C1: for every portable identifier and optional folder hint, `resolve`
searches folders in the order: hint (if given), then INBOX (unless the hint
was INBOX), then every other listed folder in listing order with hint and
INBOX excluded, short-circuiting on the first folder containing a message
whose Message-ID header equals the decoded header value; NotFoundError is
raised only after every folder in that order has been searched. The second
component of `resolveEmailId` is the list of folders actually searched. -/
theorem C1_resolve_search_order (w : World) (cid : List Char)
    (hint : Option String) (pre mid : List Char)
    (hparse : parseCompositeId cid = .ok (pre, mid))
    (hinbox : (findMailbox w "INBOX").isSome)
    (hhint : ∀ h, hint = some h → (findMailbox w h).isSome)
    (huid : ∀ f ∈ w, ∀ m ∈ f.msgs, m.uid ≠ 0) :
    (resolveEmailId w cid hint).2 =
      takeToFirst (folderContains w mid) (folderOrder w hint) ∧
    (resolveEmailId w cid hint).1 =
      (match (folderOrder w hint).find? (folderContains w mid) with
       | some p => .ok ((firstMatchUid w mid p).getD 0, p)
       | none => .error .notFound) ∧
    (∀ h, hint = some h → h ≠ "" → folderContains w mid h = true →
      (resolveEmailId w cid hint).2 = [h]) ∧
    ((∀ p ∈ folderOrder w hint, folderContains w mid p = false) →
      (resolveEmailId w cid hint).1 = .error .notFound ∧
      (resolveEmailId w cid hint).2 = folderOrder w hint) := by
  have hex : ∀ p ∈ folderOrder w hint, (findMailbox w p).isSome := by
    intro p hp
    unfold folderOrder at hp
    rcases List.mem_append.mp hp with hp1 | hp2
    · rcases List.mem_append.mp hp1 with hpa | hpb
      · cases hint with
        | none => simp at hpa
        | some h =>
          have : p = h := ((by simpa using hpa : ¬h = "" ∧ p = h)).2
          subst this
          exact hhint p rfl
      · by_cases hI : (hint == some "INBOX") = true
        · rw [if_pos hI] at hpb
          simp at hpb
        · rw [if_neg (by simpa using hI)] at hpb
          have : p = "INBOX" := by simpa using hpb
          subst this
          exact hinbox
    · have : p ∈ w.map (·.path) := List.mem_of_mem_filter hp2
      exact findMailbox_isSome_of_mem_path w p this
  have heq := resolveEmailId_eq_scanPaths w cid hint pre mid hparse
  have hspec := scanPaths_spec w mid (folderOrder w hint) hex huid
  have hmain : (resolveEmailId w cid hint).2 =
        takeToFirst (folderContains w mid) (folderOrder w hint) ∧
      (resolveEmailId w cid hint).1 =
        (match (folderOrder w hint).find? (folderContains w mid) with
         | some p => .ok ((firstMatchUid w mid p).getD 0, p)
         | none => .error .notFound) := by
    rw [heq, hspec]
    cases hfind : (folderOrder w hint).find? (folderContains w mid) with
    | none => simp [hfind]
    | some p => simp [hfind]
  refine ⟨hmain.1, hmain.2, ?_, ?_⟩
  · intro h hh hne hc
    subst hh
    rw [hmain.1]
    unfold folderOrder
    have hne' : (h == "") = false := by simpa using hne
    simp only [hne', Bool.false_eq_true, if_false, List.cons_append, takeToFirst, hc, if_true]
  · intro hnone
    have hfind : (folderOrder w hint).find? (folderContains w mid) = none :=
      List.find?_eq_none.mpr fun p hp => by simp [hnone p hp]
    refine ⟨?_, ?_⟩
    · rw [hmain.2, hfind]
    · rw [hmain.1]
      exact takeToFirst_eq_self _ _ hnone

def wC1 : World :=
  [ ⟨"INBOX", "INBOX", none, [⟨1, "<a@x>".data⟩]⟩,
    ⟨"Archive", "Archive", none, [⟨7, "<b@x>".data⟩]⟩,
    ⟨"Sent", "Sent", none, []⟩ ]

def cidC1 : List Char := "2026-02-12T14:30:25.<b@x>".data

theorem C1_resolve_search_order_witness :
    (resolveEmailId wC1 cidC1 (some "Sent")).2 = ["Sent", "INBOX", "Archive"] ∧
    (resolveEmailId wC1 cidC1 (some "Sent")).1 = .ok (7, "Archive") := by
  have h := C1_resolve_search_order wC1 cidC1 (some "Sent")
    "2026-02-12T14:30:25".data "<b@x>".data (by rfl) (by decide)
    (fun x hx => by cases Option.some.inj hx; decide) (by decide)
  exact ⟨h.1.trans (by decide), h.2.1.trans (by rfl)⟩

/-- C3: for every folder-lock acquisition whose first attempt fails: when
the failure is classified as connection-related the manager discards the
cached session, creates a fresh one (a session number the client has never
used), retries exactly once, and propagates the second outcome unchanged;
a non-connection-related first failure propagates immediately with no
retry. The third component of `openMailbox` lists the sessions on which a
lock acquisition was attempted. -/
theorem C3_lock_retry_once (env : ConnEnv) (cfg : ImapConfig) (s : CMState)
    (path : String) (c : Nat) (s1 : CMState) (e : JsValue)
    (hwf : ImapClient.WF s)
    (hconn : ImapClient.connect env cfg s = (.ok c, s1))
    (hfail : env.lockResult c path = .error e) :
    (isRetryableMailboxLockError e = false →
      ImapClient.openMailbox env cfg s path = (.error e, s1, [c])) ∧
    (isRetryableMailboxLockError e = true → env.connectErr s1.nextId = none →
      c ≠ s1.nextId ∧
      ImapClient.openMailbox env cfg s path =
        ((env.lockResult s1.nextId path).map (fun _ => s1.nextId),
          ⟨some s1.nextId, s1.nextId + 1⟩, [c, s1.nextId])) := by
  have hlt := ImapClient.connect_ok_lt env cfg s hwf c s1 hconn
  constructor
  · intro hret
    unfold ImapClient.openMailbox
    rw [hconn]
    simp only [hfail, hret, Bool.not_false, if_true]
  · intro hret hce
    refine ⟨Nat.ne_of_lt hlt, ?_⟩
    unfold ImapClient.openMailbox
    rw [hconn]
    simp only [hfail, hret, Bool.not_true, Bool.false_eq_true, if_false]
    have hc2 : ImapClient.connect env cfg { s1 with client := none } =
        (.ok s1.nextId, ⟨some s1.nextId, s1.nextId + 1⟩) := by
      unfold ImapClient.connect
      simp [hce]
    rw [hc2]
    cases h2 : env.lockResult s1.nextId path with
    | ok u => simp [h2, Except.map]
    | error e2 => simp [h2, Except.map]

def envC3 : ConnEnv :=
  { usable := fun _ => true
    connectErr := fun _ => none
    lockResult := fun n _ =>
      if n == 0 then .error (.error { message := "boom", code := some "ECONNRESET" })
      else .error (.error { message := "mailbox does not exist" }) }

def cfgC3 : ImapConfig :=
  ⟨"imap.example.com", 993, true, true, true, "u", "p"⟩

theorem C3_lock_retry_once_witness :
    (0 : Nat) ≠ 1 ∧
    ImapClient.openMailbox envC3 cfgC3 ⟨none, 0⟩ "INBOX" =
      (.error (.error { message := "mailbox does not exist" }), ⟨some 1, 2⟩, [0, 1]) := by
  have h := C3_lock_retry_once envC3 cfgC3 ⟨none, 0⟩ "INBOX" 0 ⟨some 0, 1⟩
      (.error { message := "boom", code := some "ECONNRESET" })
      (by intro c hc; exact Option.noConfusion hc) (by rfl) (by rfl)
  have h2 := h.2 (by decide) (by rfl)
  exact ⟨h2.1, h2.2.trans (by rfl)⟩

/-- C4: in draft replacement, the new draft is appended to the drafts folder
strictly before the old draft's UID is deleted; when the delete step fails
after a successful append, the error propagates with both the old and the
new draft present in the drafts folder, and no compensating deletion of the
new draft is performed (the one delete command in the trace targets the old
UID, and it is the one that failed). -/
theorem C4_append_before_delete (env : DraftEnv) (w : World) (sender : String)
    (uid : Nat) (options : DraftOptions) (d : String) (f : MailboxInfo)
    (rmid : Option (List Char)) (e : JsError)
    (hd : findDraftsFolder w = .ok d)
    (hf : findMailbox w d = some f)
    (hmem : f.msgs.any (fun m => m.uid == uid) = true)
    (hr : parsedReplyOf options = .ok rmid)
    (happend : env.appendResult = none)
    (hdel : env.deleteResult = some e) :
    updateDraft env w sender uid options =
      (.error e,
        [.listCmd, .openCmd d, .fetchCmd d uid, .listCmd,
          .appendCmd d (env.composeRaw sender options rmid),
          .openCmd d, .deleteCmd d uid],
        appendTo w d
          ⟨env.newUid, extractGeneratedMessageId (env.composeRaw sender options rmid)⟩) ∧
    (∃ m ∈ msgsIn (updateDraft env w sender uid options).2.2 d, m.uid = uid) ∧
    (⟨env.newUid, extractGeneratedMessageId (env.composeRaw sender options rmid)⟩ : Msg) ∈
      msgsIn (updateDraft env w sender uid options).2.2 d := by
  have hcd : createDraft env w sender options =
      (.ok { id := buildCompositeId env.now
               (extractGeneratedMessageId (env.composeRaw sender options rmid)),
             subject := options.subject, toAddr := options.toAddr, date := env.now },
        [.listCmd, .appendCmd d (env.composeRaw sender options rmid)],
        appendTo w d
          ⟨env.newUid, extractGeneratedMessageId (env.composeRaw sender options rmid)⟩) := by
    unfold createDraft
    rw [hr]
    dsimp only
    rw [hd, happend]
  have hupd : updateDraft env w sender uid options =
      (.error e,
        [.listCmd, .openCmd d, .fetchCmd d uid, .listCmd,
          .appendCmd d (env.composeRaw sender options rmid),
          .openCmd d, .deleteCmd d uid],
        appendTo w d
          ⟨env.newUid, extractGeneratedMessageId (env.composeRaw sender options rmid)⟩) := by
    unfold updateDraft
    rw [hd]
    dsimp only
    rw [hf]
    simp only [hmem, Bool.not_true, Bool.false_eq_true, if_false, hcd, hdel]
    rfl
  refine ⟨hupd, ?_, ?_⟩
  · rw [hupd]
    obtain ⟨m, hm, hq⟩ := List.any_eq_true.mp hmem
    refine ⟨m, ?_, by simpa using hq⟩
    unfold msgsIn
    rw [findMailbox_appendTo w d _ f hf]
    exact List.mem_append_left _ hm
  · rw [hupd]
    unfold msgsIn
    rw [findMailbox_appendTo w d _ f hf]
    exact List.mem_append_right _ (List.mem_singleton.mpr rfl)

def wC4 : World := [⟨"Drafts", "Drafts", some "\\Drafts", [⟨5, "<old@x>".data⟩]⟩]

def envC4 : DraftEnv :=
  { composeRaw := fun _ _ _ => "Message-ID: <new@x>\nSubject: s\n\nb".data
    now := ⟨2026, 2, 12, 14, 30, 25, 0⟩
    newUid := 9
    appendResult := none
    deleteResult := some { message := "delete failed" } }

def optsC4 : DraftOptions := { toAddr := "a@x", subject := "s", body := "b" }

theorem C4_append_before_delete_witness :
    (updateDraft envC4 wC4 "me@x" 5 optsC4).1 = .error { message := "delete failed" } ∧
    (∃ m ∈ msgsIn (updateDraft envC4 wC4 "me@x" 5 optsC4).2.2 "Drafts", m.uid = 5) ∧
    (⟨9, "<new@x>".data⟩ : Msg) ∈ msgsIn (updateDraft envC4 wC4 "me@x" 5 optsC4).2.2 "Drafts" := by
  have h := C4_append_before_delete envC4 wC4 "me@x" 5 optsC4 "Drafts"
      ⟨"Drafts", "Drafts", some "\\Drafts", [⟨5, "<old@x>".data⟩]⟩ none
      { message := "delete failed" } (by rfl) (by rfl) (by decide) (by rfl) (by rfl) (by rfl)
  refine ⟨?_, h.2.1, ?_⟩
  · rw [h.1]
  · have := h.2.2
    simpa using this

/-- C5: a draft-replacement request whose identifier does not resolve inside
the drafts folder fails with the scoping error and issues zero append and
zero delete commands, regardless of whether the identifier resolves in any
other folder (the world `w` is unconstrained outside the drafts folder). -/
theorem C5_update_scoping (env : DraftEnv) (w : World) (sender : String)
    (id : List Char) (toAddr subject body : String) (cc bcc : Option String)
    (inReplyTo : Option (List Char)) (d : String) (pre mid : List Char)
    (f : MailboxInfo)
    (hid : id.isEmpty = false) (hto : (toAddr == "") = false)
    (hsub : (subject == "") = false) (hbody : (body == "") = false)
    (hd : findDraftsFolder w = .ok d)
    (hparse : parseCompositeId id = .ok (pre, mid))
    (hf : findMailbox w d = some f)
    (hnores : jsTruthyNat (searchByMessageId f mid).head? = false) :
    update_draft_handler env w sender id toAddr subject body cc bcc inReplyTo =
      (.error "Draft not found. The id must refer to an email in the Drafts folder.",
        [.listCmd, .openCmd d, .searchHeaderCmd d mid], w) ∧
    (update_draft_handler env w sender id toAddr subject body cc bcc inReplyTo).2.1.countP
      Cmd.isAppend = 0 ∧
    (update_draft_handler env w sender id toAddr subject body cc bcc inReplyTo).2.1.countP
      Cmd.isDelete = 0 := by
  have hres : resolveInMailbox w mid d = .ok (searchByMessageId f mid).head? := by
    unfold resolveInMailbox
    rw [hf]
  have hmain : update_draft_handler env w sender id toAddr subject body cc bcc inReplyTo =
      (.error "Draft not found. The id must refer to an email in the Drafts folder.",
        [.listCmd, .openCmd d, .searchHeaderCmd d mid], w) := by
    unfold update_draft_handler
    simp only [hid, hto, hsub, hbody, Bool.or_self, Bool.or_false, Bool.false_eq_true,
      if_false, hd, hparse, hres, hnores, Bool.not_false, if_true]
  refine ⟨hmain, ?_, ?_⟩ <;> rw [hmain] <;> rfl

def wC5 : World :=
  [ ⟨"INBOX", "INBOX", none, [⟨3, "<m@x>".data⟩]⟩,
    ⟨"Drafts", "Drafts", some "\\Drafts", [⟨5, "<other@x>".data⟩]⟩ ]

def envC5 : DraftEnv :=
  { composeRaw := fun _ _ _ => "Message-ID: <n@x>".data
    now := ⟨2026, 2, 12, 14, 30, 25, 0⟩
    newUid := 9 }

theorem C5_update_scoping_witness :
    update_draft_handler envC5 wC5 "me@x" "2026-02-12T14:30:25.<m@x>".data
        "a@x" "s" "b" none none none =
      (.error "Draft not found. The id must refer to an email in the Drafts folder.",
        [.listCmd, .openCmd "Drafts", .searchHeaderCmd "Drafts" "<m@x>".data], wC5) ∧
    (update_draft_handler envC5 wC5 "me@x" "2026-02-12T14:30:25.<m@x>".data
        "a@x" "s" "b" none none none).2.1.countP Cmd.isAppend = 0 ∧
    (update_draft_handler envC5 wC5 "me@x" "2026-02-12T14:30:25.<m@x>".data
        "a@x" "s" "b" none none none).2.1.countP Cmd.isDelete = 0 :=
  C5_update_scoping envC5 wC5 "me@x" "2026-02-12T14:30:25.<m@x>".data
    "a@x" "s" "b" none none none "Drafts" "2026-02-12T14:30:25".data "<m@x>".data
    ⟨"Drafts", "Drafts", some "\\Drafts", [⟨5, "<other@x>".data⟩]⟩
    (by rfl) (by rfl) (by rfl) (by rfl) (by rfl) (by rfl) (by rfl) (by rfl)

/-- C10: every successful `createDraft` call returns an identifier whose
timestamp segment is the client clock at creation time (no server-reported
value exists anywhere in the operation's inputs) and whose header segment is
the Message-ID extracted from the locally composed raw message; when no
Message-ID header is found the header segment is empty and the call still
succeeds (the first conjunct holds with no constraint on the extraction). -/
theorem C10_createDraft_identity (env : DraftEnv) (w : World) (sender : String)
    (options : DraftOptions) (rmid : Option (List Char)) (d : String)
    (hr : parsedReplyOf options = .ok rmid)
    (hd : findDraftsFolder w = .ok d)
    (happend : env.appendResult = none) :
    (createDraft env w sender options).1 =
      .ok { id := buildCompositeId env.now
              (extractGeneratedMessageId (env.composeRaw sender options rmid)),
            subject := options.subject, toAddr := options.toAddr, date := env.now } ∧
    parseCompositeId
        (buildCompositeId env.now
          (extractGeneratedMessageId (env.composeRaw sender options rmid))) =
      .ok (isoSecond env.now,
        extractGeneratedMessageId (env.composeRaw sender options rmid)) := by
  constructor
  · unfold createDraft
    rw [hr]
    dsimp only
    rw [hd, happend]
  · exact parseCompositeId_buildCompositeId env.now _

def wC10 : World := [⟨"Drafts", "Drafts", some "\\Drafts", []⟩]

def envC10 : DraftEnv :=
  { composeRaw := fun _ _ _ => "Subject: hi\nTo: a@x\n\nbody".data
    now := ⟨2026, 2, 12, 14, 30, 25, 123⟩
    newUid := 9 }

def optsC10 : DraftOptions := { toAddr := "a@x", subject := "hi", body := "body" }

theorem C10_createDraft_identity_witness :
    (createDraft envC10 wC10 "me@x" optsC10).1 =
      .ok { id := "2026-02-12T14:30:25.".data, subject := "hi", toAddr := "a@x",
            date := ⟨2026, 2, 12, 14, 30, 25, 123⟩ } := by
  have h := C10_createDraft_identity envC10 wC10 "me@x" optsC10 none "Drafts"
    (by rfl) (by rfl) (by rfl)
  exact h.1.trans (by rfl)

/-- C7: `bulkMoveBySender` issues one search; with zero matches it issues no
move command and returns 0, which the tool handler reports as a
caller-visible "No emails from ..." error condition rather than an ordinary
success; with matches, exactly one search and one bulk move command are
issued and the count of matched messages is returned. -/
theorem C7_bulk_move_zero_visible (env : BulkEnv) (w : World)
    (sender source_folder destination_folder : String)
    (hs : (sender == "") = false) (hsf : (source_folder == "") = false)
    (hdf : (destination_folder == "") = false)
    (hsrc : folderExists w source_folder = true)
    (hdst : folderExists w destination_folder = true) :
    (env.searchResult = [] →
      (bulkMoveBySender env source_folder destination_folder sender).1 = 0 ∧
      (bulkMoveBySender env source_folder destination_folder sender).2.countP Cmd.isMove = 0 ∧
      (bulk_move_by_sender_email_handler env w sender source_folder destination_folder).1 =
        .error ("No emails from " ++ sender ++ " found in " ++ source_folder ++ ".") ∧
      (bulk_move_by_sender_email_handler env w sender source_folder
          destination_folder).2.countP Cmd.isMove = 0) ∧
    (env.searchResult ≠ [] →
      (bulk_move_by_sender_email_handler env w sender source_folder destination_folder).1 =
        .ok ⟨env.searchResult.length, source_folder, destination_folder, sender⟩ ∧
      (bulk_move_by_sender_email_handler env w sender source_folder
          destination_folder).2.countP Cmd.isSearchFrom = 1 ∧
      (bulk_move_by_sender_email_handler env w sender source_folder
          destination_folder).2.countP Cmd.isMove = 1) := by
  constructor
  · intro hempty
    have hb : bulkMoveBySender env source_folder destination_folder sender =
        (0, [.openCmd source_folder, .searchFromCmd source_folder sender]) := by
      unfold bulkMoveBySender
      rw [hempty]
      rfl
    have hh : bulk_move_by_sender_email_handler env w sender source_folder
        destination_folder =
        (.error ("No emails from " ++ sender ++ " found in " ++ source_folder ++ "."),
          [.listCmd, .listCmd, .openCmd source_folder,
            .searchFromCmd source_folder sender]) := by
      unfold bulk_move_by_sender_email_handler
      simp only [hs, hsf, hdf, hsrc, hdst, Bool.or_self, Bool.or_false, Bool.false_eq_true,
        if_false, Bool.not_true, hb]
      rfl
    exact ⟨by rw [hb], by rw [hb]; rfl, by rw [hh], by rw [hh]; rfl⟩
  · intro hne
    obtain ⟨a, l, hal⟩ := List.exists_cons_of_ne_nil hne
    have hb : bulkMoveBySender env source_folder destination_folder sender =
        (env.searchResult.length,
          [.openCmd source_folder, .searchFromCmd source_folder sender,
            .moveCmd source_folder env.searchResult destination_folder]) := by
      unfold bulkMoveBySender
      rw [hal]
      rfl
    have hlen : (env.searchResult.length == 0) = false := by
      rw [hal]
      rfl
    have hh : bulk_move_by_sender_email_handler env w sender source_folder
        destination_folder =
        (.ok ⟨env.searchResult.length, source_folder, destination_folder, sender⟩,
          [.listCmd, .listCmd, .openCmd source_folder,
            .searchFromCmd source_folder sender,
            .moveCmd source_folder env.searchResult destination_folder]) := by
      unfold bulk_move_by_sender_email_handler
      simp only [hs, hsf, hdf, hsrc, hdst, Bool.or_self, Bool.or_false, Bool.false_eq_true,
        if_false, Bool.not_true, hb, hlen]
      rfl
    exact ⟨by rw [hh], by rw [hh]; rfl, by rw [hh]; rfl⟩

def wC7 : World := [⟨"INBOX", "INBOX", none, []⟩, ⟨"Archive", "Archive", none, []⟩]

theorem C7_bulk_move_zero_visible_witness :
    (bulk_move_by_sender_email_handler ⟨[]⟩ wC7 "nobody@example.com" "INBOX" "Archive").1 =
      .error "No emails from nobody@example.com found in INBOX." ∧
    (bulk_move_by_sender_email_handler ⟨[]⟩ wC7 "nobody@example.com" "INBOX"
        "Archive").2.countP Cmd.isMove = 0 := by
  have h := (C7_bulk_move_zero_visible ⟨[]⟩ wC7 "nobody@example.com" "INBOX" "Archive"
      (by rfl) (by rfl) (by rfl) (by rfl) (by rfl)).1 rfl
  exact ⟨h.2.2.1.trans (by rfl), h.2.2.2⟩

end ImapMcp
